import Mathlib

/-!
Verification of the student-record persistence and grading core of the
student-management dashboard (`app.py`).

The Python source is shallowly embedded: every stateful operation is a pure
function from the stored student collection (the parsed contents of
`students.json`) to the new stored collection, together with the values the
operation reports.  Python floats are modelled as rationals, JSON records as
a structure with `Option`-typed fields (a `none` field is a key that is
absent from the JSON object), and Python dictionaries as association lists
whose keys are unique in every state the code constructs.
-/

set_option linter.unusedVariables false

namespace StudentApp

/-- Marks value as stored in a JSON record.  `num q` is a value that Python's
`float()` coerces to the number `q` (a JSON number or a numeric string);
`nonNum` is a present but non-coercible value. -/
inductive MarksVal where
  | num (q : ℚ)
  | nonNum
deriving DecidableEq

/-- One element of `student["attendance"][course_id]`:
a `{date, status, time}` record. -/
structure AttendanceEntry where
  date : String
  status : String
  time : String
deriving DecidableEq

/-- A student record (one element of the `students.json` array).
An `Option` field is `none` when the corresponding key is absent. `name` and
`roll_no` are taken as always present: every record reached by the embedded
operations is accessed through those two keys. -/
structure Student where
  name : String
  roll_no : String
  marks : Option MarksVal
  grade : Option String
  registered_courses : Option (List String)
  attendance : Option (List (String × List AttendanceEntry))
  course_grades : Option (List (String × ℚ))
deriving DecidableEq

/-- Python exceptions that the embedded code can raise. -/
inductive PyErr where
  | typeError
  | valueError
  | keyError
deriving DecidableEq

instance {e a : Type} [DecidableEq e] [DecidableEq a] :
    DecidableEq (Except e a) := fun x y =>
  match x, y with
  | .error u, .error v =>
    if h : u = v then .isTrue (by rw [h])
    else .isFalse (fun he => h (by injection he))
  | .ok u, .ok v =>
    if h : u = v then .isTrue (by rw [h])
    else .isFalse (fun he => h (by injection he))
  | .error _, .ok _ => .isFalse (fun he => Except.noConfusion he)
  | .ok _, .error _ => .isFalse (fun he => Except.noConfusion he)

/-- Embeds `calculate_grade` (app.py:84): fixed thresholds 90/80/70/60. -/
def calculate_grade (marks : ℚ) : String :=
  if marks ≥ 90 then "A"
  else if marks ≥ 80 then "B"
  else if marks ≥ 70 then "C"
  else if marks ≥ 60 then "D"
  else "F"

/-- Python `str.strip()` on the whitespace the records use (kept as a direct
structural recursion over the character list so that it evaluates in the
kernel). -/
def pyStrip (s : String) : String :=
  ⟨((s.data.dropWhile Char.isWhitespace).reverse.dropWhile Char.isWhitespace).reverse⟩

/-- The grade that the load-time backfill derives for a record whose `grade`
key is absent but whose `marks` key is present (app.py:114-120):
`calculate_grade(float(marks))`, or `"F"` when `float` raises. -/
def backfillGrade : MarksVal → String
  | .num q => calculate_grade q
  | .nonNum => "F"

/-- Whether the load-time loop of `load_students` (app.py:111-123) modifies a
record: `grade` missing with `marks` present, or `registered_courses`
missing. -/
def needsBackfill (s : Student) : Bool :=
  (s.grade.isNone && s.marks.isSome) || s.registered_courses.isNone

/-- The per-record effect of the backfill loop in `load_students`
(app.py:111-123). -/
def backfillRecord (s : Student) : Student :=
  let s1 :=
    match s.grade, s.marks with
    | none, some m => { s with grade := some (backfillGrade m) }
    | _, _ => s
  match s1.registered_courses with
  | none => { s1 with registered_courses := some [] }
  | some _ => s1

/-- Embeds `load_students` (app.py:98) on an already parsed array of records: the
backfill loop applied to each record, plus the `rerecord` flag that decides
whether the corrected collection is saved back before returning.  (The Python
loop mutates each record in place and or-accumulates one flag; this is the
same as mapping the per-record effect and asking whether any record needed
it.) -/
def load_students (l : List Student) : List Student × Bool :=
  (l.map backfillRecord, l.any needsBackfill)

/-- Outcome reported by `add_student` (app.py:1473): which `st.error` /
`st.warning` / success branch ran. -/
inductive AddOutcome where
  | emptyName
  | emptyRoll
  | badMarks
  | duplicate
  | ok
deriving DecidableEq

/-- The record `add_student` appends on success (app.py:1494-1499): only the
four keys `name`, `roll_no`, `marks`, `grade` are written. -/
def newStudent (name roll_no : String) (marks : ℚ) : Student :=
  { name := pyStrip name
    roll_no := pyStrip roll_no
    marks := some (.num marks)
    grade := some (calculate_grade marks)
    registered_courses := none
    attendance := none
    course_grades := none }

/-- Embeds `add_student` (app.py:1473) as a transition on the stored collection.
Returns the stored collection after the call, whether any `save_students`
ran (the load-time backfill save or the success save), and the outcome.
Validation order and the duplicate scan follow the source. -/
def add_student (store : List Student) (name roll_no : String) (marks : ℚ) :
    List Student × Bool × AddOutcome :=
  let loaded := load_students store
  let students := loaded.1
  if pyStrip name = "" then (students, loaded.2, .emptyName)
  else if pyStrip roll_no = "" then (students, loaded.2, .emptyRoll)
  else if marks < 0 ∨ marks > 100 then (students, loaded.2, .badMarks)
  else
    match students.find? (fun s => s.roll_no == pyStrip roll_no) with
    | some _ => (students, loaded.2, .duplicate)
    | none => (students ++ [newStudent name roll_no marks], true, .ok)

/-- One cleaned row of the uploaded tabular file, after the pandas steps of
`upload_file` (app.py:1533-1548) have dropped incomplete rows, coerced
`marks` to a number and filtered it to [0,100]. -/
structure Row where
  name : String
  roll_no : String
  marks : ℚ
deriving DecidableEq

/-- The import loop of `upload_file` (app.py:1550-1575).  `existing_rolls` is
computed once from the loaded collection before the loop and is never
extended inside it — exactly as in the source. -/
def upload_rows (existing : List Student) (rows : List Row) :
    List Student × Nat × Nat :=
  let existing_rolls := existing.map Student.roll_no
  rows.foldl
    (fun acc row =>
      let roll := pyStrip row.roll_no
      if roll ∈ existing_rolls then
        (acc.1, acc.2.1, acc.2.2 + 1)
      else
        (acc.1 ++ [newStudent row.name row.roll_no row.marks],
         acc.2.1 + 1, acc.2.2))
    (existing, 0, 0)

/-- Embeds `upload_file` (app.py:1508) from the load on: returns the stored
collection after the call, the `added` and `skipped` counts, and whether a
save ran (`save_students` runs iff `added > 0`; a backfill save may also have
run during the load). -/
def upload_file (store : List Student) (rows : List Row) :
    List Student × Nat × Nat × Bool :=
  let loaded := load_students store
  let r := upload_rows loaded.1 rows
  if r.2.1 > 0 then (r.1, r.2.1, r.2.2, true)
  else (loaded.1, r.2.1, r.2.2, loaded.2)

/-- In-place mutation of the first element of a list satisfying `p` — the
pattern `next((x for x in xs if p x), None)` followed by mutating the found
object, which the source uses for students and attendance entries. -/
def updateFirst (p : α → Bool) (f : α → α) : List α → List α
  | [] => []
  | a :: rest => if p a then f a :: rest else a :: updateFirst p f rest

/-- Python `new_marks != current` where `new_marks` is a float and `current`
is whatever is stored under `"marks"`: numeric comparison against a number,
always true against a non-number. -/
def marksNe (new : ℚ) : MarksVal → Bool
  | .num q => new != q
  | .nonNum => true

/-- Embeds `update_student_marks` (app.py:1665) as a transition on the stored
collection for a chosen roll number and new marks value.  The function loads
(with backfill), locates the first record with that roll number, reads its
current `marks` (a missing key raises `KeyError`; `float()` of a
non-coercible value raises when building the number input, app.py:1692), and
on a changed value writes `marks` and the recomputed `grade` back and saves.
Returns the stored collection and whether the update save ran. -/
def update_student_marks (store : List Student) (roll : String) (new : ℚ) :
    Except PyErr (List Student × Bool) :=
  match (load_students store).1.find? (fun s => s.roll_no == roll) with
  | none => .ok ((load_students store).1, false)
  | some s =>
    match s.marks with
    | none => .error .keyError
    | some (.nonNum) => .error .valueError
    | some (.num q) =>
      if new != q then
        .ok (updateFirst (fun t => t.roll_no == roll)
              (fun t => { t with marks := some (.num new)
                                 grade := some (calculate_grade new) })
              (load_students store).1,
             true)
      else .ok ((load_students store).1, false)

/-- Python `d.get(k, default)` / `d[k]` on an association-list dictionary
(keys are unique in every dictionary the code builds). -/
def dictGetD (d : List (String × α)) (k : String) (dflt : α) : α :=
  match d.find? (fun kv => kv.1 == k) with
  | some kv => kv.2
  | none => dflt

/-- Python `d[k] = v` on an association-list dictionary. -/
def dictSet (d : List (String × α)) (k : String) (v : α) : List (String × α) :=
  if d.any (fun kv => kv.1 == k) then
    d.map (fun kv => if kv.1 == k then (kv.1, v) else kv)
  else d ++ [(k, v)]

/-- Python `sum(d.values()) / len(d)` for a course-grades dictionary. -/
def dictMean (d : List (String × ℚ)) : ℚ :=
  (d.map Prod.snd).sum / d.length

/-- The body of `mark_attendance` on the per-course entry list
(app.py:479-490): if an entry with this exact date exists, overwrite the
first one's `status` and `time` in place, otherwise append a new entry. -/
def upsertEntry (date status now : String) (recs : List AttendanceEntry) :
    List AttendanceEntry :=
  if recs.any (fun r => r.date == date) then
    updateFirst (fun r => r.date == date)
      (fun r => { r with status := status, time := now }) recs
  else
    recs ++ [⟨date, status, now⟩]

/-- Embeds `mark_attendance` (app.py:471): ensure the `attendance` dict and the
per-course list exist (`{}` and `[]` defaults), apply the upsert to the
per-course list, and store it back under `course_id`.  `now` is the
`pd.Timestamp.now()` string. -/
def mark_attendance (student : Student) (course_id date status now : String) :
    Student :=
  { student with attendance := some (dictSet (student.attendance.getD [])
      course_id (upsertEntry date status now
        (dictGetD (student.attendance.getD []) course_id []))) }

/-- The fields of an externally supplied course record that the registration
logic reads (app.py:584-614): its identifier and its capacity. -/
structure Course where
  course_id : String
  max_students : Nat
deriving DecidableEq

/-- Python `sum(1 for s in students if ...)` (app.py:518)
— the registrant count, recomputed from the live collection. -/
def registered_count (students : List Student) (cid : String) : Nat :=
  students.countP (fun s => (s.registered_courses.getD []).contains cid)

/-- Whether the registration tab lets the chosen student register for the
chosen course: a course is offered only while its recomputed registrant
count is below `max_students` and the student is not already registered
(app.py:584-588). -/
inductive RegOutcome where
  | registered
  | unavailable
deriving DecidableEq

/-- The registration step of `course_registration` (app.py:584-614) for a
freshly loaded collection: the course dropdown only contains courses with
spare capacity that the student has not registered yet, and the register
button appends the course to the student's `registered_courses` and saves. -/
def register_course (students : List Student) (courses : List Course)
    (roll cid : String) : List Student × RegOutcome :=
  match students.find? (fun s => s.roll_no == roll) with
  | none => (students, .unavailable)
  | some student =>
    match courses.find? (fun c => c.course_id == cid) with
    | none => (students, .unavailable)
    | some course =>
      if registered_count students cid < course.max_students
          ∧ ¬ (student.registered_courses.getD []).contains cid then
        (updateFirst (fun s => s.roll_no == roll)
          (fun s =>
            let cur := s.registered_courses.getD []
            { s with registered_courses := some (cur ++ [cid]) }) students,
         .registered)
      else (students, .unavailable)

/-- Python `max(0.0, min(100.0, x))` (app.py:852, 876), written with explicit
comparisons (Python `min`/`max` of two numbers) so it evaluates in the
kernel. -/
def clamp01 (q : ℚ) : ℚ :=
  if 0 < (if q < 100 then q else 100) then (if q < 100 then q else 100) else 0

/-- The "Update Grades" button handler of `grade_management` (app.py:812-825)
for one student: `course_grades` is the dictionary after the per-course
widgets applied their edits.  Reading `student['marks']` raises `KeyError`
when the key is absent; otherwise the overall marks are first updated from
the widget when changed, then overwritten by the mean of `course_grades`
whenever that dictionary is non-empty. -/
def update_grades_button (student : Student) (new_marks : ℚ)
    (course_grades : List (String × ℚ)) : Except PyErr Student :=
  match student.marks with
  | none => .error .keyError
  | some cur =>
    let s1 :=
      if marksNe new_marks cur then
        { student with marks := some (.num new_marks)
                       grade := some (calculate_grade new_marks) }
      else student
    let s2 := { s1 with course_grades := some course_grades }
    if course_grades.isEmpty then .ok s2
    else
      .ok { s2 with marks := some (.num (dictMean course_grades))
                    grade := some (calculate_grade (dictMean course_grades)) }

/-- The per-student body of the "Apply Course Adjustment" loop
(app.py:871-887): when the selected course has a grade, clamp the adjusted
value, and on an actual change store it and recompute the overall marks and
grade from the mean of the updated dictionary.  Returns the student and
whether `updated_count` was incremented. -/
def course_adjust_student (cid : String) (adj : ℚ) (s : Student) :
    Student × Bool :=
  if (s.course_grades.getD []).any (fun kv => kv.1 == cid) then
    if clamp01 (dictGetD (s.course_grades.getD []) cid 0 + adj)
        != dictGetD (s.course_grades.getD []) cid 0 then
      ({ s with
          course_grades := some (dictSet (s.course_grades.getD []) cid
            (clamp01 (dictGetD (s.course_grades.getD []) cid 0 + adj)))
          marks := some (.num (dictMean (dictSet (s.course_grades.getD []) cid
            (clamp01 (dictGetD (s.course_grades.getD []) cid 0 + adj)))))
          grade := some (calculate_grade (dictMean
            (dictSet (s.course_grades.getD []) cid
              (clamp01 (dictGetD (s.course_grades.getD []) cid 0 + adj))))) },
       true)
    else (s, false)
  else (s, false)

/-- The per-student body of the "Apply Bulk Adjustment" loop (app.py:848-856):
`min_range <= student['marks'] <= max_range` raises on a missing or
non-numeric value; inside the range, the clamped adjusted value replaces the
marks and the grade is recomputed whenever the value actually changes.
Returns the student and whether `updated_count` was incremented. -/
def bulk_adjust_student (minR maxR adj : ℚ) (s : Student) :
    Except PyErr (Student × Bool) :=
  match s.marks with
  | none => .error .keyError
  | some .nonNum => .error .typeError
  | some (.num q) =>
    if minR ≤ q ∧ q ≤ maxR then
      if clamp01 (q + adj) != q then
        .ok ({ s with marks := some (.num (clamp01 (q + adj)))
                      grade := some (calculate_grade (clamp01 (q + adj))) },
             true)
      else .ok (s, false)
    else .ok (s, false)

/-- The whole "Apply Bulk Adjustment" loop over the loaded collection; the
single `save_students` runs only when `updated_count > 0`. -/
def bulk_adjust (students : List Student) (minR maxR adj : ℚ) :
    Except PyErr (List Student × Nat) :=
  match students with
  | [] => .ok ([], 0)
  | s :: rest => do
    let (s', b) ← bulk_adjust_student minR maxR adj s
    let (rest', n) ← bulk_adjust rest minR maxR adj
    pure (s' :: rest', (if b then 1 else 0) + n)

/-- A stored collection on which the load-time backfill has nothing to do:
every record that has `marks` also has `grade`, and every record has
`registered_courses`. -/
def normalized (l : List Student) : Bool :=
  l.all (fun s => !(needsBackfill s))

/-! ### JSON-level model of the file-facing loaders

`load_students` and `load_data` catch only `json.JSONDecodeError` and
`FileNotFoundError`; what a syntactically valid file parses to flows into the
backfill loop untyped.  To settle how the loaders behave on arbitrary file
contents, the parsed value is modelled as a JSON tree and the Python
operations the loop performs on it (`in`, indexing, item assignment,
`float()`) are modelled with their exception behaviour. -/

/-- A parsed JSON value, as produced by `json.load`. -/
inductive JVal where
  | jnull
  | jbool (b : Bool)
  | jnum (q : ℚ)
  | jstr (s : String)
  | jarr (items : List JVal)
  | jobj (fields : List (String × JVal))

/-- Whether `needle` is an initial segment of `hay` (over character lists,
kept structural for kernel evaluation). -/
def startsWithL : List Char → List Char → Bool
  | [], _ => true
  | _ :: _, [] => false
  | a :: as, b :: bs => a == b && startsWithL as bs

/-- Python `needle in hay` for strings: substring containment. -/
def containsL (needle : List Char) : List Char → Bool
  | [] => needle.isEmpty
  | c :: rest => startsWithL needle (c :: rest) || containsL needle rest

/-- Python `needle in hay` on two strings. -/
def pyInStr (needle hay : String) : Bool :=
  containsL needle.data hay.data

/-- Python `x == key` for a string `key` against a JSON value `x` (used by
`key in list`): only equal strings compare equal. -/
def eqStrJ (key : String) : JVal → Bool
  | .jstr s => key == s
  | _ => false

/-- Python `key in v` for a string key: key lookup on a dict, substring test
on a string, element equality on a list, `TypeError` otherwise. -/
def pyContains (key : String) : JVal → Except PyErr Bool
  | .jobj kvs => .ok (kvs.any (fun kv => kv.1 == key))
  | .jstr s => .ok (pyInStr key s)
  | .jarr items => .ok (items.any (eqStrJ key))
  | _ => .error .typeError

/-- Python `v[key]` for a string key: dict lookup (`KeyError` when absent);
`TypeError` on lists, strings and scalars (string indices must be
integers). -/
def pyGetItem (v : JVal) (key : String) : Except PyErr JVal :=
  match v with
  | .jobj kvs =>
    match kvs.find? (fun kv => kv.1 == key) with
    | some kv => .ok kv.2
    | none => .error .keyError
  | _ => .error .typeError

/-- Python `v[key] = x` for a string key: dict item assignment; `TypeError`
on every other value. -/
def pySetItem (v : JVal) (key : String) (x : JVal) : Except PyErr JVal :=
  match v with
  | .jobj kvs => .ok (.jobj (dictSet kvs key x))
  | _ => .error .typeError

/-- Value of a list of decimal digit characters. -/
def digitsToNat (l : List Char) : Nat :=
  l.foldl (fun n c => n * 10 + (c.toNat - 48)) 0

/-- Python `float()` on a string, for the plain decimal literals that occur
in these data files: optional sign, digits, optional fractional part.  Other
strings raise `ValueError` (modelled as `none`). -/
def parsePyFloat (s : String) : Option ℚ :=
  let t := (pyStrip s).data
  let signRest : Bool × List Char :=
    match t with
    | '+' :: r => (false, r)
    | '-' :: r => (true, r)
    | r => (false, r)
  let ipRest := signRest.2.span Char.isDigit
  let fp? : Option (List Char) :=
    match ipRest.2 with
    | [] => some []
    | '.' :: r => if r.all Char.isDigit then some r else none
    | _ => none
  match fp? with
  | none => none
  | some fp =>
    if ipRest.1.isEmpty && fp.isEmpty then none
    else
      let v : ℚ := (digitsToNat ipRest.1 : ℚ) + (digitsToNat fp : ℚ) / (10 ^ fp.length)
      some (if signRest.1 then -v else v)

/-- Python `float(v)`: numbers pass through, booleans coerce to 0/1, strings
are parsed (`ValueError` on failure), everything else raises `TypeError`. -/
def pyFloat (v : JVal) : Except PyErr ℚ :=
  match v with
  | .jnum q => .ok q
  | .jbool b => .ok (if b then 1 else 0)
  | .jstr s =>
    match parsePyFloat s with
    | some q => .ok q
    | none => .error .valueError
  | _ => .error .typeError

/-- The grade half of the backfill loop body (app.py:114-120) on one iterated
element: `if "grade" not in s and "marks" in s:` then
`try: s["grade"] = calculate_grade(float(s["marks"])) except (ValueError,
TypeError): s["grade"] = "F"`.  The `and` short-circuits; only `ValueError`
and `TypeError` from the try body are caught, and the except branch's own
assignment can itself raise. -/
def backfillGradeJ (s : JVal) : Except PyErr (JVal × Bool) := do
  let g ← pyContains "grade" s
  if !g then
    let m ← pyContains "marks" s
    if m then
      match (do
        let mv ← pyGetItem s "marks"
        let q ← pyFloat mv
        pySetItem s "grade" (.jstr (calculate_grade q)) : Except PyErr JVal) with
      | .ok s' => pure (s', true)
      | .error .valueError => do
        let s' ← pySetItem s "grade" (.jstr "F")
        pure (s', true)
      | .error .typeError => do
        let s' ← pySetItem s "grade" (.jstr "F")
        pure (s', true)
      | .error e => .error e
    else pure (s, false)
  else pure (s, false)

/-- The `registered_courses` half of the loop body (app.py:121-123). -/
def backfillRegJ (s : JVal) : Except PyErr (JVal × Bool) := do
  let r ← pyContains "registered_courses" s
  if !r then do
    let s' ← pySetItem s "registered_courses" (.jarr [])
    pure (s', true)
  else pure (s, false)

/-- One full iteration of the backfill loop on one element. -/
def bodyJ (s : JVal) : Except PyErr (JVal × Bool) := do
  let r1 ← backfillGradeJ s
  let r2 ← backfillRegJ r1.1
  pure (r2.1, r1.2 || r2.2)

/-- The backfill loop over the elements of a JSON array, rebuilding the array
(the Python loop mutates the elements in place); the first exception
aborts. -/
def normalizeItems : List JVal → Except PyErr (List JVal × Bool)
  | [] => .ok ([], false)
  | s :: rest => do
    let r ← bodyJ s
    let r' ← normalizeItems rest
    pure (r.1 :: r'.1, r.2 || r'.2)

/-- Running the loop body over iterated values that are not part of the
stored structure (dict keys, string characters): only the exceptions
matter. -/
def checkItems : List JVal → Except PyErr Unit
  | [] => .ok ()
  | s :: rest => do
    let _ ← bodyJ s
    checkItems rest

/-- The `for s in students` backfill loop of `load_students` on an arbitrary
parsed value.  A JSON array is iterated over its elements; a JSON object is
iterated over its keys (strings, which cannot be item-assigned, so a pass
that does not raise leaves the object unchanged with `rerecord` false); a
string is iterated over its characters; a number, boolean or null is not
iterable and raises `TypeError`. -/
def pyLoadNormalize (v : JVal) : Except PyErr (JVal × Bool) :=
  match v with
  | .jarr items => do
    let r ← normalizeItems items
    pure (.jarr r.1, r.2)
  | .jobj kvs => do
    checkItems (kvs.map (fun kv => JVal.jstr kv.1))
    pure (.jobj kvs, false)
  | .jstr s => do
    checkItems (s.data.map (fun c => JVal.jstr (String.singleton c)))
    pure (.jstr s, false)
  | _ => .error .typeError

/-- The state of a backing JSON file. -/
inductive FileState where
  | absent
  | invalid
  | content (v : JVal)

/-- Embeds `load_students` (app.py:98) at the file level: `init_data_file` creates
an empty array file when absent; `json.load` failures (`JSONDecodeError`)
leave `students = []`; a parsed value runs the backfill loop, and the
corrected value is saved back whenever `rerecord` is set.  Returns what the
call returns (or raises) and the file state it leaves behind. -/
def load_students_file (fs : FileState) : Except PyErr JVal × FileState :=
  let fs1 := match fs with | .absent => FileState.content (.jarr []) | x => x
  match fs1 with
  | .content v =>
    match pyLoadNormalize v with
    | .error e => (.error e, fs1)
    | .ok (v', true) => (.ok v', .content v')
    | .ok (v', false) => (.ok v', fs1)
  | .invalid => (.ok (.jarr []), .invalid)
  | .absent => (.ok (.jarr []), .absent)

/-- Embeds `load_data` (app.py:136): absent file or `JSONDecodeError` yield `[]`;
any syntactically valid JSON value is returned as is, whatever its shape. -/
def load_data (fs : FileState) : JVal :=
  match fs with
  | .absent => .jarr []
  | .invalid => .jarr []
  | .content v => v

end StudentApp

namespace StudentApp

/-- C3: `calculate_grade` returns "A" iff marks ≥ 90, "B" iff 80 ≤ marks < 90,
"C" iff 70 ≤ marks < 80, "D" iff 60 ≤ marks < 70 and "F" iff marks < 60, with
exact boundaries; as a Lean function over ℚ it is deterministic, total and
side-effect free. -/
theorem calculate_grade_thresholds (m : ℚ) :
    (calculate_grade m = "A" ↔ 90 ≤ m) ∧
    (calculate_grade m = "B" ↔ 80 ≤ m ∧ m < 90) ∧
    (calculate_grade m = "C" ↔ 70 ≤ m ∧ m < 80) ∧
    (calculate_grade m = "D" ↔ 60 ≤ m ∧ m < 70) ∧
    (calculate_grade m = "F" ↔ m < 60) := by
  unfold calculate_grade
  split_ifs with h1 h2 h3 h4 <;>
    refine ⟨?_, ?_, ?_, ?_, ?_⟩ <;>
    constructor <;>
    intro hh <;>
    first
      | rfl
      | linarith
      | (exact ⟨by linarith, by linarith⟩)
      | (exact absurd hh (by decide))

theorem backfillRecord_id (s : Student) (h : needsBackfill s = false) :
    backfillRecord s = s := by
  unfold needsBackfill at h
  unfold backfillRecord
  cases hg : s.grade <;> cases hm : s.marks <;> cases hr : s.registered_courses <;>
    simp_all

theorem map_backfillRecord_id : ∀ l : List Student,
    (∀ s ∈ l, needsBackfill s = false) → l.map backfillRecord = l := by
  intro l
  induction l with
  | nil => exact fun _ => rfl
  | cons a t ih =>
    intro hall
    simp only [List.map_cons]
    rw [backfillRecord_id a (hall a (by simp)),
      ih (fun s hs => hall s (by simp [hs]))]

theorem load_students_normalized (l : List Student) (h : normalized l = true) :
    load_students l = (l, false) := by
  unfold normalized at h
  have hall : ∀ s ∈ l, needsBackfill s = false := by
    intro s hs
    have := (List.all_eq_true.mp h) s hs
    simpa using this
  unfold load_students
  have hany : l.any needsBackfill = false := by
    simp only [List.any_eq_false]
    intro s hs
    simp [hall s hs]
  rw [map_backfillRecord_id l hall, hany]

/-- C1: the bulk-import loop of `upload_file` computes `existing_rolls` once
before the loop and never extends it with the roll numbers it appends, so a
batch whose rows repeat a roll number appends every occurrence and saves a
collection with a duplicated `roll_no` — the uniqueness invariant is not
preserved and the write is not rejected.  Evaluated at the two-row batch with
repeated roll number "1" against the empty store. -/
theorem upload_file_same_batch_duplicate_breaks_uniqueness :
    (upload_file [] [⟨"A", "1", 85⟩, ⟨"B", "1", 50⟩]).1.map Student.roll_no
        = ["1", "1"] ∧
    ¬ ((upload_file [] [⟨"A", "1", 85⟩, ⟨"B", "1", 50⟩]).1.map
        Student.roll_no).Nodup ∧
    (upload_file [] [⟨"A", "1", 85⟩, ⟨"B", "1", 50⟩]).2.2.2 = true := by
  refine ⟨by decide, ?_, by decide⟩
  intro h
  have h1 : ((upload_file [] [⟨"A", "1", 85⟩, ⟨"B", "1", 50⟩]).1.map
      Student.roll_no) = ["1", "1"] := by decide
  rw [h1] at h
  simp at h

/-- C2: `upload_file` on the batch
`[{name:"A",roll_no:"1",marks:85}, {name:"B",roll_no:"1",marks:50}]` against
the empty store adds BOTH records and reports `added = 2`, `skipped = 0` —
not one record with `skipped = 1` as claimed: the within-batch duplicate is
not detected because `existing_rolls` is never updated inside the loop. -/
theorem upload_file_duplicate_batch_counts :
    (upload_file [] [⟨"A", "1", 85⟩, ⟨"B", "1", 50⟩]).2.1 = 2 ∧
    (upload_file [] [⟨"A", "1", 85⟩, ⟨"B", "1", 50⟩]).2.2.1 = 0 ∧
    (upload_file [] [⟨"A", "1", 85⟩, ⟨"B", "1", 50⟩]).1 =
      [newStudent "A" "1" 85, newStudent "B" "1" 50] := by
  refine ⟨by decide, by decide, by decide⟩

/-- C5 counterexample: (i) a successful `add_student` appends a record whose
`registered_courses` key is absent, not an empty list; (ii) when the stored
collection contains a legacy record (here: one missing `grade`), a
validation-failing `add_student` call still saves, because `load_students`
persists its backfill before the validation runs — the store is changed even
though the add was rejected. -/
theorem add_student_claim_counterexample :
    ((add_student [] "A" "1" 50).1.map Student.registered_courses = [none]) ∧
    ((add_student [] "A" "1" 50).2.2 = AddOutcome.ok) ∧
    ((add_student [⟨"L", "9", some (.num 10), none, none, none, none⟩]
        "" "1" 50).2.1 = true) ∧
    ((add_student [⟨"L", "9", some (.num 10), none, none, none, none⟩]
        "" "1" 50).1 ≠ [⟨"L", "9", some (.num 10), none, none, none, none⟩]) := by
  refine ⟨by decide, by decide, by decide, by decide⟩

/-- C5 (amended): for an already-normalized stored collection, `add_student`
fails without saving and leaves the store unchanged when the trimmed name or
roll number is empty, when marks is outside [0,100], or when the trimmed
roll number already occurs (case-sensitive exact match); it succeeds exactly
otherwise, and then appends exactly one record — carrying
`grade = calculate_grade marks` but no `registered_courses` key — leaving
all pre-existing records unchanged. -/
theorem add_student_amended (store : List Student) (name roll_no : String)
    (marks : ℚ) (hnorm : normalized store = true) :
    ((add_student store name roll_no marks).2.2 ≠ AddOutcome.ok →
      (add_student store name roll_no marks).1 = store ∧
      (add_student store name roll_no marks).2.1 = false) ∧
    ((add_student store name roll_no marks).2.2 = AddOutcome.ok ↔
      pyStrip name ≠ "" ∧ pyStrip roll_no ≠ "" ∧
      ¬(marks < 0 ∨ marks > 100) ∧
      ∀ s ∈ store, s.roll_no ≠ pyStrip roll_no) ∧
    ((add_student store name roll_no marks).2.2 = AddOutcome.ok →
      (add_student store name roll_no marks).1 =
        store ++ [newStudent name roll_no marks] ∧
      (add_student store name roll_no marks).2.1 = true) := by
  unfold add_student
  rw [load_students_normalized store hnorm]
  by_cases h1 : pyStrip name = ""
  · simp [h1]
  by_cases h2 : pyStrip roll_no = ""
  · simp [h1, h2]
  by_cases h3 : marks < 0 ∨ marks > 100
  · simp [h1, h2, h3]
  cases hfind : store.find? (fun s => s.roll_no == pyStrip roll_no) with
  | some s =>
    have hmem := List.find?_some hfind
    have hsmem := List.mem_of_find?_eq_some hfind
    simp only [h1, h2, h3, hfind, if_neg, if_false]
    refine ⟨by simp [h1, h2, h3], ?_, by simp⟩
    constructor
    · intro hok
      simp at hok
    · rintro ⟨-, -, -, hno⟩
      exact absurd (by simpa using hmem) (hno s hsmem)
  | none =>
    have hno : ∀ s ∈ store, s.roll_no ≠ pyStrip roll_no := by
      intro s hs
      have := List.find?_eq_none.mp hfind s hs
      simpa using this
    simp [h1, h2, h3, hfind]
    exact hno

theorem mem_updateFirst {p : α → Bool} {f : α → α} :
    ∀ {l : List α} {a : α}, a ∈ updateFirst p f l → a ∈ l ∨ ∃ b ∈ l, a = f b := by
  intro l
  induction l with
  | nil => intro a h; exact absurd h (by simp [updateFirst])
  | cons x t ih =>
    intro a h
    unfold updateFirst at h
    by_cases hp : p x
    · rw [if_pos hp] at h
      rcases List.mem_cons.mp h with h1 | h2
      · exact Or.inr ⟨x, by simp, h1⟩
      · exact Or.inl (List.mem_cons_of_mem _ h2)
    · rw [if_neg hp] at h
      rcases List.mem_cons.mp h with h1 | h2
      · exact Or.inl (by simp [h1])
      · rcases ih h2 with h3 | ⟨b, hb, he⟩
        · exact Or.inl (List.mem_cons_of_mem _ h3)
        · exact Or.inr ⟨b, List.mem_cons_of_mem _ hb, he⟩

theorem needsBackfill_iff (s : Student) :
    needsBackfill s = true ↔
      (s.grade = none ∧ s.marks ≠ none) ∨ s.registered_courses = none := by
  unfold needsBackfill
  cases hg : s.grade <;> cases hm : s.marks <;> cases hr : s.registered_courses <;>
    simp [hg, hm, hr]

theorem backfillRecord_fields (s : Student) :
    (backfillRecord s).name = s.name ∧
    (backfillRecord s).roll_no = s.roll_no ∧
    (backfillRecord s).marks = s.marks ∧
    (backfillRecord s).attendance = s.attendance ∧
    (backfillRecord s).course_grades = s.course_grades ∧
    (backfillRecord s).registered_courses = some (s.registered_courses.getD []) ∧
    (backfillRecord s).grade =
      (match s.grade, s.marks with
        | none, some m => some (backfillGrade m)
        | g, _ => g) := by
  unfold backfillRecord
  cases hg : s.grade <;> cases hm : s.marks <;> cases hr : s.registered_courses <;>
    simp [hg, hm, hr]

/-- C4 counterexample: a legacy record that is missing BOTH `grade` and
`marks` is not backfilled — the loop's guard requires `marks` to be present,
so `load_students` returns it still without a `grade`, contradicting
"backfills every record missing grade (… defaulting to F …)". -/
theorem load_students_missing_marks_not_backfilled :
    ¬ (∀ s ∈ (load_students [⟨"X", "R1", none, none, none, none, none⟩]).1,
        s.grade.isSome = true) := by
  intro h
  exact absurd (h ⟨"X", "R1", none, none, some [], none, none⟩ (by decide))
    (by decide)

/-- C4 (amended): every mutation that changes a student's marks leaves that
student's grade equal to `calculate_grade` of the new marks — on a
successful `add_student`, on the record rewritten by `update_student_marks`,
on a record changed by the bulk adjustment, and on both course-grade update
paths (where marks become the course-grade mean); and `load_students`
backfills every record missing `grade` THAT HAS a `marks` key (deriving the
grade, `"F"` when not coercible), leaves `grade` absent when `marks` is also
absent, defaults missing `registered_courses` to the empty list, and saves
the corrected collection exactly when some record was backfilled. -/
theorem grade_policy_invariant_amended :
    (∀ (store : List Student) (name roll_no : String) (marks : ℚ),
      (add_student store name roll_no marks).2.2 = AddOutcome.ok →
      (add_student store name roll_no marks).1 =
        (load_students store).1 ++ [newStudent name roll_no marks]) ∧
    (∀ (store : List Student) (roll : String) (new : ℚ)
        (res : List Student × Bool),
      update_student_marks store roll new = .ok res →
      ∀ s' ∈ res.1, s' ∈ (load_students store).1 ∨
        (s'.marks = some (.num new) ∧
          s'.grade = some (calculate_grade new))) ∧
    (∀ (minR maxR adj : ℚ) (s s' : Student) (b : Bool),
      bulk_adjust_student minR maxR adj s = .ok (s', b) →
      s' = s ∨ ∃ q', s'.marks = some (.num q') ∧
        s'.grade = some (calculate_grade q')) ∧
    (∀ (s : Student) (new : ℚ) (cg : List (String × ℚ)) (s' : Student),
      update_grades_button s new cg = .ok s' → cg ≠ [] →
      s'.marks = some (.num (dictMean cg)) ∧
      s'.grade = some (calculate_grade (dictMean cg))) ∧
    (∀ (cid : String) (adj : ℚ) (s : Student),
      (course_adjust_student cid adj s).1 = s ∨
      ∃ cg', (course_adjust_student cid adj s).1.course_grades = some cg' ∧
        (course_adjust_student cid adj s).1.marks =
          some (.num (dictMean cg')) ∧
        (course_adjust_student cid adj s).1.grade =
          some (calculate_grade (dictMean cg'))) ∧
    (∀ (l : List Student) (i : Nat) (s : Student), l.get? i = some s →
      ∃ s', (load_students l).1.get? i = some s' ∧
        s'.name = s.name ∧ s'.roll_no = s.roll_no ∧ s'.marks = s.marks ∧
        s'.attendance = s.attendance ∧ s'.course_grades = s.course_grades ∧
        s'.registered_courses = some (s.registered_courses.getD []) ∧
        s'.grade =
          (match s.grade, s.marks with
            | none, some m => some (backfillGrade m)
            | g, _ => g)) ∧
    (∀ l : List Student, (load_students l).2 = true ↔
      ∃ s ∈ l, (s.grade = none ∧ s.marks ≠ none) ∨
        s.registered_courses = none) := by
  refine ⟨?_, ?_, ?_, ?_, ?_, ?_, ?_⟩
  · intro store name roll_no marks hok
    unfold add_student at hok ⊢
    by_cases h1 : pyStrip name = ""
    · simp [h1] at hok
    by_cases h2 : pyStrip roll_no = ""
    · simp [h1, h2] at hok
    by_cases h3 : marks < 0 ∨ marks > 100
    · simp [h1, h2, h3] at hok
    cases hfind : (load_students store).1.find?
        (fun s => s.roll_no == pyStrip roll_no) with
    | some s => simp [h1, h2, h3, hfind] at hok
    | none => simp [h1, h2, h3, hfind]
  · intro store roll new res hres s' hs'
    unfold update_student_marks at hres
    cases hfind : (load_students store).1.find? (fun s => s.roll_no == roll) with
    | none =>
      simp only [hfind, Except.ok.injEq] at hres
      subst hres
      exact Or.inl hs'
    | some s =>
      simp only [hfind] at hres
      cases hm : s.marks with
      | none => simp only [hm] at hres; exact Except.noConfusion hres
      | some mv =>
        cases mv with
        | nonNum => simp only [hm] at hres; exact Except.noConfusion hres
        | num q =>
          simp only [hm] at hres
          by_cases hne : new != q
          · simp only [if_pos hne, Except.ok.injEq] at hres
            subst hres
            rcases mem_updateFirst hs' with h | ⟨b, hb, he⟩
            · exact Or.inl h
            · subst he; exact Or.inr ⟨rfl, rfl⟩
          · simp only [if_neg hne, Except.ok.injEq] at hres
            subst hres
            exact Or.inl hs'
  · intro minR maxR adj s s' b hok
    unfold bulk_adjust_student at hok
    cases hm : s.marks with
    | none => simp only [hm] at hok; exact Except.noConfusion hok
    | some mv =>
      cases mv with
      | nonNum => simp only [hm] at hok; exact Except.noConfusion hok
      | num q =>
        simp only [hm] at hok
        by_cases hr : minR ≤ q ∧ q ≤ maxR
        · simp only [if_pos hr] at hok
          by_cases hc : clamp01 (q + adj) != q
          · simp only [if_pos hc, Except.ok.injEq, Prod.mk.injEq] at hok
            obtain ⟨h1, -⟩ := hok
            subst h1
            exact Or.inr ⟨clamp01 (q + adj), rfl, rfl⟩
          · simp only [if_neg hc, Except.ok.injEq, Prod.mk.injEq] at hok
            obtain ⟨h1, -⟩ := hok
            subst h1
            exact Or.inl rfl
        · simp only [if_neg hr, Except.ok.injEq, Prod.mk.injEq] at hok
          obtain ⟨h1, -⟩ := hok
          subst h1
          exact Or.inl rfl
  · intro s new cg s' hok hcg
    unfold update_grades_button at hok
    cases hm : s.marks with
    | none => simp only [hm] at hok; exact Except.noConfusion hok
    | some cur =>
      cases cg with
      | nil => exact absurd rfl hcg
      | cons a t =>
        simp only [hm, List.isEmpty_cons, Bool.false_eq_true, if_false,
          Except.ok.injEq] at hok
        subst hok
        exact ⟨rfl, rfl⟩
  · intro cid adj s
    unfold course_adjust_student
    by_cases hin : (s.course_grades.getD []).any (fun kv => kv.1 == cid)
    · rw [if_pos hin]
      by_cases hc : clamp01 (dictGetD (s.course_grades.getD []) cid 0 + adj)
          != dictGetD (s.course_grades.getD []) cid 0
      · rw [if_pos hc]
        exact Or.inr ⟨_, rfl, rfl, rfl⟩
      · rw [if_neg hc]
        exact Or.inl rfl
    · rw [if_neg hin]
      exact Or.inl rfl
  · intro l i s hget
    refine ⟨backfillRecord s, ?_, (backfillRecord_fields s).1,
      (backfillRecord_fields s).2.1, (backfillRecord_fields s).2.2.1,
      (backfillRecord_fields s).2.2.2.1, (backfillRecord_fields s).2.2.2.2.1,
      (backfillRecord_fields s).2.2.2.2.2.1,
      (backfillRecord_fields s).2.2.2.2.2.2⟩
    show (l.map backfillRecord).get? i = some (backfillRecord s)
    rw [List.get?_map, hget]
    rfl
  · intro l
    unfold load_students
    simp only [List.any_eq_true]
    constructor
    · rintro ⟨s, hs, hb⟩
      exact ⟨s, hs, (needsBackfill_iff s).mp hb⟩
    · rintro ⟨s, hs, hb⟩
      exact ⟨s, hs, (needsBackfill_iff s).mpr hb⟩

/-- C4 amended, witnessed at concrete inputs: a successful add derives the
grade; an update rewrites marks and grade together; a bulk adjustment and a
course-grade update recompute the grade; and loading a record that has marks
but no grade backfills and reports a save. -/
theorem grade_policy_invariant_amended_witness :
    ((add_student [] "A" "1" 95).1 =
      (load_students []).1 ++ [newStudent "A" "1" 95]) ∧
    (∀ s' ∈ ([⟨"A", "1", some (.num 95), some "A", some [], none, none⟩] :
        List Student),
      s' ∈ (load_students
          [⟨"A", "1", some (.num 50), some "F", some [], none, none⟩]).1 ∨
        (s'.marks = some (.num 95) ∧ s'.grade = some (calculate_grade 95))) ∧
    ((⟨"A", "1", some (.num 60), some "D", some [], none, none⟩ : Student) =
        ⟨"A", "1", some (.num 50), some "F", some [], none, none⟩ ∨
      ∃ q', (some (MarksVal.num 60) : Option MarksVal) = some (.num q') ∧
        (some "D" : Option String) = some (calculate_grade q')) ∧
    ((load_students [⟨"Y", "R2", some (.num 72), none, none, none, none⟩]).2 =
        true ↔
      ∃ s ∈ ([⟨"Y", "R2", some (.num 72), none, none, none, none⟩] :
          List Student),
        (s.grade = none ∧ s.marks ≠ none) ∨ s.registered_courses = none) := by
  refine ⟨?_, ?_, ?_, ?_⟩
  · exact grade_policy_invariant_amended.1 [] "A" "1" 95 (by decide)
  · exact grade_policy_invariant_amended.2.1
      [⟨"A", "1", some (.num 50), some "F", some [], none, none⟩] "1" 95
      ([⟨"A", "1", some (.num 95), some "A", some [], none, none⟩], true)
      (by decide)
  · exact grade_policy_invariant_amended.2.2.1 0 100 10
      ⟨"A", "1", some (.num 50), some "F", some [], none, none⟩
      ⟨"A", "1", some (.num 60), some "D", some [], none, none⟩ true
      (by norm_num [bulk_adjust_student, clamp01, calculate_grade])
  · exact grade_policy_invariant_amended.2.2.2.2.2.2
      [⟨"Y", "R2", some (.num 72), none, none, none, none⟩]

theorem updateFirst_length (p : α → Bool) (f : α → α) :
    ∀ l : List α, (updateFirst p f l).length = l.length := by
  intro l
  induction l with
  | nil => rfl
  | cons a t ih =>
    unfold updateFirst
    by_cases hp : p a
    · rw [if_pos hp]; simp
    · rw [if_neg hp]; simpa using ih

theorem updateFirst_cons_pos (p : α → Bool) (f : α → α) (a : α) (l : List α)
    (h : p a = true) : updateFirst p f (a :: l) = f a :: l := by
  unfold updateFirst
  rw [if_pos h]

theorem updateFirst_cons_neg (p : α → Bool) (f : α → α) (a : α) (l : List α)
    (h : p a = false) : updateFirst p f (a :: l) = a :: updateFirst p f l := by
  simp only [updateFirst]
  rw [if_neg (by simp [h])]

theorem dictGetD_dictSet_self (k : String) (v dflt : α) :
    ∀ d : List (String × α), dictGetD (dictSet d k v) k dflt = v := by
  intro d
  induction d with
  | nil => simp [dictSet, dictGetD]
  | cons kv t ih =>
    by_cases hk : kv.1 == k
    · have hk2 : kv.1 = k := by simpa using hk
      have hany : (kv :: t).any (fun x => x.1 == k) = true := by
        simp [List.any_cons, hk2]
      unfold dictSet
      rw [if_pos hany]
      simp [dictGetD, hk2]
    · have hk2 : ¬ kv.1 = k := by simpa using hk
      have hk' : (kv.1 == k) = false := by simpa using hk
      have hstep : dictSet (kv :: t) k v = kv :: dictSet t k v := by
        unfold dictSet
        simp only [List.any_cons, hk', Bool.false_or]
        by_cases ht : t.any (fun x => x.1 == k)
        · simp [ht, hk2]
        · simp [ht]
      rw [hstep]
      unfold dictGetD
      rw [List.find?_cons_of_neg _ (by simp [hk'])]
      exact ih

theorem mark_attendance_recs (s : Student) (cid date st t : String) :
    dictGetD ((mark_attendance s cid date st t).attendance.getD []) cid []
      = upsertEntry date st t (dictGetD (s.attendance.getD []) cid []) := by
  unfold mark_attendance
  simp [dictGetD_dictSet_self]

theorem upsertEntry_cons_pos (r : AttendanceEntry) (recs : List AttendanceEntry)
    (date st t : String) (hp : (r.date == date) = true) :
    upsertEntry date st t (r :: recs)
      = { r with status := st, time := t } :: recs := by
  unfold upsertEntry
  rw [if_pos (by simp [List.any_cons, hp])]
  unfold updateFirst
  rw [if_pos hp]

theorem upsertEntry_cons_neg (r : AttendanceEntry) (recs : List AttendanceEntry)
    (date st t : String) (hp : (r.date == date) = false) :
    upsertEntry date st t (r :: recs) = r :: upsertEntry date st t recs := by
  unfold upsertEntry
  simp only [List.any_cons, hp, Bool.false_or]
  by_cases ha : recs.any (fun x => x.date == date)
  · rw [if_pos ha, if_pos ha]
    exact updateFirst_cons_neg _ _ _ _ hp
  · have ha' : recs.any (fun x => x.date == date) = false := by simpa using ha
    rw [if_neg (by simp [ha']), if_neg (by simp [ha'])]
    simp

theorem upsertEntry_twice_filter (date st1 t1 st2 t2 : String) :
    ∀ recs : List AttendanceEntry,
      recs.countP (fun r => r.date == date) ≤ 1 →
      (upsertEntry date st2 t2 (upsertEntry date st1 t1 recs)).filter
          (fun r => r.date == date)
        = [⟨date, st2, t2⟩] := by
  intro recs
  induction recs with
  | nil =>
    intro _
    simp [upsertEntry, updateFirst, List.filter]
  | cons r t ih =>
    intro h
    by_cases hp : (r.date == date) = true
    · have hdate : r.date = date := by simpa using hp
      have hct : t.countP (fun x => x.date == date) = 0 := by
        rw [List.countP_cons, if_pos hp] at h
        omega
      rw [upsertEntry_cons_pos r t date st1 t1 hp]
      rw [upsertEntry_cons_pos _ t date st2 t2 (by simpa using hp)]
      have hrec : ({ ({ r with status := st1, time := t1 } : AttendanceEntry)
          with status := st2, time := t2 } : AttendanceEntry)
            = ⟨date, st2, t2⟩ := by
        cases r
        simp_all
      rw [hrec]
      rw [List.filter_cons_of_pos (by simp)]
      have hft : t.filter (fun x => x.date == date) = [] := by
        rw [List.filter_eq_nil]
        intro a ha
        have := List.countP_eq_zero.mp hct a ha
        simpa using this
      rw [hft]
    · have hp' : (r.date == date) = false := by simpa using hp
      have hct : t.countP (fun x => x.date == date) ≤ 1 := by
        rw [List.countP_cons, if_neg (by simp [hp'])] at h
        omega
      rw [upsertEntry_cons_neg r t date st1 t1 hp']
      rw [upsertEntry_cons_neg r _ date st2 t2 hp']
      rw [List.filter_cons_of_neg (by simp [hp'])]
      exact ih hct

/-- C7: for a per-course attendance list holding at most one entry for a
date (the invariant `mark_attendance` itself maintains), marking attendance
twice for the same `(course_id, date)` leaves exactly one entry for that
date, holding the second call's status and timestamp; and a single call
appends a new entry when no entry for that exact date exists, otherwise it
overwrites the first matching entry's status and time in place without
changing the number of entries. -/
theorem mark_attendance_upsert :
    (∀ (s : Student) (cid date st1 t1 st2 t2 : String),
      (dictGetD (s.attendance.getD []) cid []).countP
          (fun r => r.date == date) ≤ 1 →
      (dictGetD ((mark_attendance (mark_attendance s cid date st1 t1)
              cid date st2 t2).attendance.getD []) cid []).filter
          (fun r => r.date == date) = [⟨date, st2, t2⟩]) ∧
    (∀ (s : Student) (cid date st t : String),
      ((dictGetD (s.attendance.getD []) cid []).any
          (fun r => r.date == date) = false →
        dictGetD ((mark_attendance s cid date st t).attendance.getD []) cid []
          = dictGetD (s.attendance.getD []) cid [] ++ [⟨date, st, t⟩]) ∧
      ((dictGetD (s.attendance.getD []) cid []).any
          (fun r => r.date == date) = true →
        dictGetD ((mark_attendance s cid date st t).attendance.getD []) cid []
          = updateFirst (fun r => r.date == date)
              (fun r => { r with status := st, time := t })
              (dictGetD (s.attendance.getD []) cid []) ∧
        (dictGetD ((mark_attendance s cid date st t).attendance.getD [])
              cid []).length
          = (dictGetD (s.attendance.getD []) cid []).length)) := by
  constructor
  · intro s cid date st1 t1 st2 t2 h
    rw [mark_attendance_recs, mark_attendance_recs]
    exact upsertEntry_twice_filter date st1 t1 st2 t2 _ h
  · intro s cid date st t
    constructor
    · intro hany
      rw [mark_attendance_recs]
      unfold upsertEntry
      rw [if_neg (by simp [hany])]
    · intro hany
      refine ⟨?_, ?_⟩
      · rw [mark_attendance_recs]
        unfold upsertEntry
        rw [if_pos hany]
      · rw [mark_attendance_recs]
        unfold upsertEntry
        rw [if_pos hany]
        exact updateFirst_length _ _ _

/-- C7 witnessed at a student who already has one entry for the date: two
calls leave exactly one entry for that date with the second status/time. -/
theorem mark_attendance_upsert_witness :
    (dictGetD ((mark_attendance (mark_attendance
          ⟨"A", "1", some (.num 50), some "F", some ["C1"],
            some [("C1", [⟨"2024-01-01", "Present", "08:00"⟩])], none⟩
          "C1" "2024-01-01" "Absent" "09:00")
          "C1" "2024-01-01" "Late" "10:00").attendance.getD []) "C1" []).filter
        (fun r => r.date == "2024-01-01")
      = [⟨"2024-01-01", "Late", "10:00"⟩] :=
  mark_attendance_upsert.1
    ⟨"A", "1", some (.num 50), some "F", some ["C1"],
      some [("C1", [⟨"2024-01-01", "Present", "08:00"⟩])], none⟩
    "C1" "2024-01-01" "Absent" "09:00" "Late" "10:00" (by decide)

theorem dictSet_isEmpty_false (d : List (String × α)) (k : String) (v : α) :
    (dictSet d k v).isEmpty = false := by
  unfold dictSet
  by_cases h : d.any (fun kv => kv.1 == k)
  · rw [if_pos h]
    cases d with
    | nil => simp at h
    | cons kv t => simp
  · rw [if_neg h]
    cases d <;> simp

/-- C8: both course-grade update paths recompute the student's overall marks
as the arithmetic mean of all values in the updated `course_grades`
dictionary and the grade from that mean.  In the "Update Grades" handler the
result is independent of the directly edited overall marks value (`new`), so
a direct overall-marks edit is overridden by the mean; the bulk per-course
adjustment does the same whenever it changes a stored course grade. -/
theorem course_grade_update_recomputes_mean :
    (∀ (s : Student) (new : ℚ) (cid : String) (score : ℚ) (m : MarksVal),
      s.marks = some m →
      update_grades_button s new (dictSet (s.course_grades.getD []) cid score)
        = Except.ok
            { s with
              course_grades := some (dictSet (s.course_grades.getD []) cid score)
              marks := some (.num (dictMean
                (dictSet (s.course_grades.getD []) cid score)))
              grade := some (calculate_grade (dictMean
                (dictSet (s.course_grades.getD []) cid score))) }) ∧
    (∀ (cid : String) (adj : ℚ) (s : Student),
      (s.course_grades.getD []).any (fun kv => kv.1 == cid) = true →
      (clamp01 (dictGetD (s.course_grades.getD []) cid 0 + adj)
          != dictGetD (s.course_grades.getD []) cid 0) = true →
      course_adjust_student cid adj s
        = ({ s with
              course_grades := some (dictSet (s.course_grades.getD []) cid
                (clamp01 (dictGetD (s.course_grades.getD []) cid 0 + adj)))
              marks := some (.num (dictMean (dictSet (s.course_grades.getD [])
                cid (clamp01 (dictGetD (s.course_grades.getD []) cid 0 + adj)))))
              grade := some (calculate_grade (dictMean
                (dictSet (s.course_grades.getD []) cid
                  (clamp01 (dictGetD (s.course_grades.getD []) cid 0 + adj))))) },
            true)) := by
  constructor
  · intro s new cid score m hm
    cases hmn : marksNe new m <;>
      simp [update_grades_button, hm, hmn, dictSet_isEmpty_false]
  · intro cid adj s hin hne
    unfold course_adjust_student
    rw [if_pos hin, if_pos hne]

/-- C8 witnessed concretely: setting course "C2" to 90 for a student with
one existing course grade overrides the directly passed overall marks with
the dictionary mean; and a bulk +50 adjustment of course "C1" (stored grade
0) rewrites marks/grade from the updated mean. -/
theorem course_grade_update_recomputes_mean_witness :
    (update_grades_button
        ⟨"A", "1", some (.num 50), some "F", some ["C1"], none,
          some [("C1", 70)]⟩ 0 (dictSet [("C1", 70)] "C2" 90)
      = Except.ok
          ⟨"A", "1", some (.num (dictMean (dictSet [("C1", 70)] "C2" 90))),
            some (calculate_grade (dictMean (dictSet [("C1", 70)] "C2" 90))),
            some ["C1"], none, some (dictSet [("C1", 70)] "C2" 90)⟩) ∧
    (course_adjust_student "C1" 50
        ⟨"A", "1", some (.num 50), some "F", some ["C1"], none,
          some [("C1", 0)]⟩
      = (⟨"A", "1",
            some (.num (dictMean (dictSet [("C1", (0:ℚ))] "C1"
              (clamp01 (dictGetD [("C1", (0:ℚ))] "C1" 0 + 50))))),
            some (calculate_grade (dictMean (dictSet [("C1", (0:ℚ))] "C1"
              (clamp01 (dictGetD [("C1", (0:ℚ))] "C1" 0 + 50))))),
            some ["C1"], none,
            some (dictSet [("C1", (0:ℚ))] "C1"
              (clamp01 (dictGetD [("C1", (0:ℚ))] "C1" 0 + 50)))⟩,
          true)) := by
  constructor
  · exact course_grade_update_recomputes_mean.1 _ 0 "C2" 90 (.num 50) rfl
  · exact course_grade_update_recomputes_mean.2 "C1" 50
      ⟨"A", "1", some (.num 50), some "F", some ["C1"], none, some [("C1", 0)]⟩
      (by decide)
      (by
        show (clamp01 (dictGetD [("C1", (0:ℚ))] "C1" 0 + 50)
            != dictGetD [("C1", (0:ℚ))] "C1" 0) = true
        have h1 : dictGetD [("C1", (0:ℚ))] "C1" 0 = 0 := rfl
        rw [h1, zero_add]
        decide)

theorem countP_updateFirst_invar (p q : α → Bool) (f : α → α)
    (hq : ∀ a, q (f a) = q a) :
    ∀ l : List α, (updateFirst p f l).countP q = l.countP q := by
  intro l
  induction l with
  | nil => rfl
  | cons x t ih =>
    by_cases hp : p x
    · rw [updateFirst_cons_pos _ _ _ _ hp, List.countP_cons, List.countP_cons,
        hq]
    · have hp' : p x = false := by simpa using hp
      rw [updateFirst_cons_neg _ _ _ _ hp', List.countP_cons,
        List.countP_cons, ih]

theorem countP_updateFirst_found (p q : α → Bool) (f : α → α) :
    ∀ (l : List α) (a : α), l.find? p = some a → q a = false →
      q (f a) = true →
      (updateFirst p f l).countP q = l.countP q + 1 := by
  intro l
  induction l with
  | nil => intro a h; simp at h
  | cons x t ih =>
    intro a h hqa hqfa
    by_cases hp : p x
    · rw [List.find?_cons_of_pos _ hp] at h
      injection h with h
      subst h
      rw [updateFirst_cons_pos _ _ _ _ hp, List.countP_cons, List.countP_cons,
        hqa, hqfa]
      simp
    · have hp' : p x = false := by simpa using hp
      rw [List.find?_cons_of_neg _ hp] at h
      rw [updateFirst_cons_neg _ _ _ _ hp', List.countP_cons,
        List.countP_cons, ih a h hqa hqfa]
      omega

/-- C9: the registration tab offers a course only while its registrant count
— recomputed by scanning the whole freshly loaded collection, never cached —
is strictly below `max_students` (and the student is not already
registered): (i) whenever the count has reached `max_students`, the
registration attempt is rejected and the collection is unchanged; (ii) a
successful registration keeps every course's registrant count at or below
its `max_students`, provided course identifiers are unique. -/
theorem register_course_capacity :
    (∀ (students : List Student) (courses : List Course) (roll cid : String)
        (course : Course),
      courses.find? (fun c => c.course_id == cid) = some course →
      course.max_students ≤ registered_count students cid →
      register_course students courses roll cid = (students, .unavailable)) ∧
    (∀ (students : List Student) (courses : List Course) (roll cid : String),
      (courses.map Course.course_id).Nodup →
      (register_course students courses roll cid).2 = .registered →
      ∀ c ∈ courses,
        registered_count students c.course_id ≤ c.max_students →
        registered_count (register_course students courses roll cid).1
            c.course_id ≤ c.max_students) := by
  constructor
  · intro students courses roll cid course hfc hge
    unfold register_course
    cases hfs : students.find? (fun s => s.roll_no == roll) with
    | none => simp only [hfs]
    | some student =>
      simp only [hfs, hfc]
      rw [if_neg]
      intro hguard
      exact absurd hguard.1 (not_lt.mpr hge)
  · intro students courses roll cid hnd hreg c hc hle
    unfold register_course at hreg ⊢
    cases hfs : students.find? (fun s => s.roll_no == roll) with
    | none => simp [hfs] at hreg
    | some student =>
      simp only [hfs] at hreg ⊢
      cases hfc : courses.find? (fun x => x.course_id == cid) with
      | none => simp [hfc] at hreg
      | some course =>
        simp only [hfc] at hreg ⊢
        by_cases hguard : registered_count students cid < course.max_students
            ∧ ¬ (student.registered_courses.getD []).contains cid
        · simp only [if_pos hguard] at hreg ⊢
          by_cases hcc : c.course_id = cid
          · have hcourse_mem := List.mem_of_find?_eq_some hfc
            have hcourse_id : course.course_id = cid := by
              have := List.find?_some hfc
              simpa using this
            have hceq : c = course :=
              List.inj_on_of_nodup_map hnd hc hcourse_mem
                (by rw [hcc, hcourse_id])
            subst hceq
            rw [hcc]
            have hcount := countP_updateFirst_found
              (fun s => s.roll_no == roll)
              (fun s => (s.registered_courses.getD []).contains cid)
              (fun s =>
                let cur := s.registered_courses.getD []
                { s with registered_courses := some (cur ++ [cid]) })
              students student hfs
              (by
                have := hguard.2
                simpa using this)
              (by simp)
            have hlt := hguard.1
            unfold registered_count at hcount hle hlt ⊢
            rw [hcount]
            omega
          · have hcount := countP_updateFirst_invar
              (fun s => s.roll_no == roll)
              (fun s => (s.registered_courses.getD []).contains c.course_id)
              (fun s =>
                let cur := s.registered_courses.getD []
                { s with registered_courses := some (cur ++ [cid]) })
              (by
                intro a
                simp [List.contains_eq_any_beq, List.any_append]
                intro hbad
                exact absurd hbad hcc)
              students
            unfold registered_count at hcount hle ⊢
            rw [hcount]
            exact hle
        · simp only [if_neg hguard] at hreg
          simp at hreg

/-- C9 witnessed concretely: with one course of capacity 1 already holding
one registrant, a registration attempt for a second student is rejected and
the collection unchanged; and a successful registration into a course of
capacity 2 keeps every count within capacity. -/
theorem register_course_capacity_witness :
    (register_course
        [⟨"A", "1", some (.num 50), some "F", some ["C1"], none, none⟩,
         ⟨"B", "2", some (.num 60), some "D", some [], none, none⟩]
        [⟨"C1", 1⟩] "2" "C1"
      = ([⟨"A", "1", some (.num 50), some "F", some ["C1"], none, none⟩,
          ⟨"B", "2", some (.num 60), some "D", some [], none, none⟩],
         .unavailable)) ∧
    (∀ c ∈ ([⟨"C1", 2⟩] : List Course),
      registered_count
        [⟨"A", "1", some (.num 50), some "F", some ["C1"], none, none⟩,
         ⟨"B", "2", some (.num 60), some "D", some [], none, none⟩]
        c.course_id ≤ c.max_students →
      registered_count
        (register_course
          [⟨"A", "1", some (.num 50), some "F", some ["C1"], none, none⟩,
           ⟨"B", "2", some (.num 60), some "D", some [], none, none⟩]
          [⟨"C1", 2⟩] "2" "C1").1 c.course_id ≤ c.max_students) := by
  constructor
  · exact register_course_capacity.1
      [⟨"A", "1", some (.num 50), some "F", some ["C1"], none, none⟩,
       ⟨"B", "2", some (.num 60), some "D", some [], none, none⟩]
      [⟨"C1", 1⟩] "2" "C1" ⟨"C1", 1⟩ (by decide) (by decide)
  · exact register_course_capacity.2
      [⟨"A", "1", some (.num 50), some "F", some ["C1"], none, none⟩,
       ⟨"B", "2", some (.num 60), some "D", some [], none, none⟩]
      [⟨"C1", 2⟩] "2" "C1" (by decide) (by decide)

theorem updateFirst_eq_set (p : α → Bool) (f : α → α) :
    ∀ (l : List α) (a : α), l.find? p = some a →
      ∃ j, l.get? j = some a ∧ p a = true ∧
        updateFirst p f l = l.set j (f a) := by
  intro l
  induction l with
  | nil => intro a h; simp at h
  | cons x t ih =>
    intro a h
    by_cases hp : p x
    · rw [List.find?_cons_of_pos _ hp] at h
      injection h with h
      subst h
      exact ⟨0, rfl, hp, by rw [updateFirst_cons_pos _ _ _ _ hp]; rfl⟩
    · have hp' : p x = false := by simpa using hp
      rw [List.find?_cons_of_neg _ hp] at h
      obtain ⟨j, hj, hpa, heq⟩ := ih a h
      refine ⟨j + 1, by simpa using hj, hpa, ?_⟩
      rw [updateFirst_cons_neg _ _ _ _ hp', heq]
      rfl

/-- C10 (amended): when `update_student_marks` changes a student's marks on
an ALREADY-NORMALIZED store (so the load-time backfill rewrites nothing) and
saves, only that one record changes: the saved
collection has the same length, every record whose roll number differs from
the target is unchanged at its position, and exactly one position — holding
the first record with the target roll number — is replaced by the same
record with only `marks` and the recomputed `grade` rewritten (all other
fields of the target record are carried over by the record update). -/
theorem update_student_marks_frame (store : List Student) (roll : String)
    (new q : ℚ) (s0 : Student)
    (hnorm : normalized store = true)
    (hfind : store.find? (fun s => s.roll_no == roll) = some s0)
    (hm : s0.marks = some (.num q)) (hne : new ≠ q) :
    ∃ store', update_student_marks store roll new = .ok (store', true) ∧
      store'.length = store.length ∧
      (∀ (i : Nat) (s : Student), store.get? i = some s → s.roll_no ≠ roll →
        store'.get? i = some s) ∧
      ∃ j, store.get? j = some s0 ∧
        store'.get? j = some { s0 with marks := some (.num new), grade := some (calculate_grade new) } ∧
        ∀ k : Nat, k ≠ j → store'.get? k = store.get? k := by
  have hload := load_students_normalized store hnorm
  obtain ⟨j, hj, hpa, heq⟩ := updateFirst_eq_set
    (fun s => s.roll_no == roll)
    (fun t => { t with marks := some (.num new), grade := some (calculate_grade new) }) store s0 hfind
  have hjlt : j < store.length := by
    cases hlt : Nat.decLt j store.length with
    | isTrue h => exact h
    | isFalse h =>
      rw [List.get?_eq_none.mpr (by omega)] at hj
      exact Option.noConfusion hj
  refine ⟨store.set j { s0 with marks := some (.num new), grade := some (calculate_grade new) }, ?_, ?_, ?_, j, hj, ?_, ?_⟩
  · unfold update_student_marks
    simp only [hload, hfind, hm]
    rw [if_pos (by simpa [bne_iff_ne] using hne)]
    rw [heq]
  · simp
  · intro i s hget hner
    by_cases hij : i = j
    · subst hij
      rw [hj] at hget
      injection hget with hget
      subst hget
      exact absurd (by simpa using hpa) hner
    · rw [List.get?_set_ne _ _ (fun h => hij h.symm)]
      exact hget
  · exact List.get?_set_eq_of_lt _ hjlt
  · intro k hk
    exact List.get?_set_ne _ _ (fun h => hk h.symm)

/-- C10 counterexample: the frame property fails on stores the code itself
produces.  `add_student` saves records without a `registered_courses` key,
and `update_student_marks` begins with `load_students`, whose backfill
rewrites and persists such legacy records.  Here the store holds a legacy
record (roll "9", no `registered_courses`) and the target (roll "2");
updating roll "2" saves a collection in which the roll-"9" record — whose
roll number differs from the target — has changed as well. -/
theorem update_student_marks_claim_counterexample :
    (update_student_marks
        [⟨"L", "9", some (.num 10), some "F", none, none, none⟩,
         ⟨"B", "2", some (.num 70), some "C", some [], none, none⟩]
        "2" 95
      = .ok ([⟨"L", "9", some (.num 10), some "F", some [], none, none⟩,
              ⟨"B", "2", some (.num 95), some "A", some [], none, none⟩],
             true)) ∧
    (⟨"L", "9", some (.num 10), some "F", none, none, none⟩ :
        Student).roll_no ≠ "2" ∧
    (⟨"L", "9", some (.num 10), some "F", some [], none, none⟩ : Student)
      ≠ ⟨"L", "9", some (.num 10), some "F", none, none, none⟩ := by
  refine ⟨by decide, by decide, by decide⟩

/-- C10 (amended) witnessed at a concrete two-student normalized store:
updating roll "2" from 70 to 95 rewrites only that record's marks and
grade. -/
theorem update_student_marks_frame_witness :
    ∃ store',
      update_student_marks
          [⟨"A", "1", some (.num 50), some "F", some [], none, none⟩,
           ⟨"B", "2", some (.num 70), some "C", some [], none, none⟩]
          "2" 95 = .ok (store', true) ∧
      store'.length =
        ([⟨"A", "1", some (.num 50), some "F", some [], none, none⟩,
          ⟨"B", "2", some (.num 70), some "C", some [], none, none⟩] :
            List Student).length ∧
      (∀ (i : Nat) (s : Student),
        ([⟨"A", "1", some (.num 50), some "F", some [], none, none⟩,
          ⟨"B", "2", some (.num 70), some "C", some [], none, none⟩] :
            List Student).get? i = some s → s.roll_no ≠ "2" →
        store'.get? i = some s) ∧
      ∃ j,
        ([⟨"A", "1", some (.num 50), some "F", some [], none, none⟩,
          ⟨"B", "2", some (.num 70), some "C", some [], none, none⟩] :
            List Student).get? j =
          some ⟨"B", "2", some (.num 70), some "C", some [], none, none⟩ ∧
        store'.get? j = some
          { (⟨"B", "2", some (.num 70), some "C", some [], none, none⟩ :
              Student) with
            marks := some (.num 95), grade := some (calculate_grade 95) } ∧
        ∀ k : Nat, k ≠ j → store'.get? k =
          ([⟨"A", "1", some (.num 50), some "F", some [], none, none⟩,
            ⟨"B", "2", some (.num 70), some "C", some [], none, none⟩] :
              List Student).get? k :=
  update_student_marks_frame
    [⟨"A", "1", some (.num 50), some "F", some [], none, none⟩,
     ⟨"B", "2", some (.num 70), some "C", some [], none, none⟩]
    "2" 95 70 ⟨"B", "2", some (.num 70), some "C", some [], none, none⟩
    (by decide) (by decide) rfl (by decide)

/-- C6 counterexample: the fail-open behaviour covers only JSON syntax
errors, not structural mismatches.  (i) A file whose content parses to the
array `[1]` makes `load_students` raise `TypeError` (the backfill loop runs
`"grade" not in 1`), so the loader is not total over file states; (ii) a
file whose content parses to the object `{"a": 1}` makes `load_data` return
that object as is, not the empty collection. -/
theorem load_wrong_shape_counterexample :
    (load_students_file (.content (.jarr [.jnum 1]))).1
        = .error .typeError ∧
    load_data (.content (.jobj [("a", .jnum 1)])) ≠ .jarr [] := by
  refine ⟨rfl, ?_⟩
  intro h
  exact JVal.noConfusion h

/-- C6 (amended): `load_students` and `load_data` never raise when the
backing file is absent (both treat the collection as empty, and
`load_students` additionally creates an empty-array file) or when its
content is not syntactically valid JSON (both return the empty collection);
but syntactically valid JSON of an unexpected shape is NOT degraded to the
empty collection: `load_data` returns the parsed value unchanged, whatever
its shape (and `load_students` can raise on it, per the counterexample). -/
theorem load_fail_open_amended :
    load_students_file .absent = (.ok (.jarr []), .content (.jarr [])) ∧
    load_students_file .invalid = (.ok (.jarr []), .invalid) ∧
    load_data .absent = .jarr [] ∧
    load_data .invalid = .jarr [] ∧
    (∀ v : JVal, load_data (.content v) = v) :=
  ⟨rfl, rfl, rfl, rfl, fun _ => rfl⟩

/-- C5 amended, witnessed at a concrete normalized store: adding "B"/"2" to a
store holding roll number "1" succeeds and appends the derived record. -/
theorem add_student_amended_witness :
    (add_student [⟨"A", "1", some (.num 50), some "F", some [], none, none⟩]
        "B" "2" 95).2.2 = AddOutcome.ok ∧
    (add_student [⟨"A", "1", some (.num 50), some "F", some [], none, none⟩]
        "B" "2" 95).1 =
      [⟨"A", "1", some (.num 50), some "F", some [], none, none⟩] ++
        [newStudent "B" "2" 95] := by
  have h := add_student_amended
    [⟨"A", "1", some (.num 50), some "F", some [], none, none⟩] "B" "2" 95
    (by decide)
  refine ⟨?_, ?_⟩
  · exact h.2.1.mpr (by decide)
  · exact (h.2.2 (h.2.1.mpr (by decide))).1

end StudentApp
